import Mathlib

/-!
Shallow embedding of the authentication, session-token and
directory-synchronization core of the openkeg backend, together with proofs
of the specified properties.  The definitions mirror the Rust sources:
`src/user/tokens.rs`, `src/user/auth.rs`, `src/user/self_service.rs`,
`src/user/executives.rs`, `src/member/model.rs`, `src/member/state.rs` and
`src/ldap/sync.rs`.  Cryptographic signing is modelled symbolically: a
signature records the algorithm, the signed payload and the identifier of
the signing key, and verification succeeds exactly when they match the
token and the public key.
-/

namespace OpenKeg

/-- Case-insensitive ASCII string comparison, the model of the Rust
`str::eq_ignore_ascii_case` (Lean `Char.toLower` lowers exactly the ASCII
range, as the Rust function does). -/
def eqIgnoreAsciiCase (a b : String) : Bool :=
  a.toLower == b.toLower

/-- Postal address of a member, `Address` in `src/member/model.rs`. -/
structure Address where
  street : String
  house_number : String
  postal_code : String
  city : String
  state : String
  country_code : String
deriving DecidableEq, Repr

/-- A member record, `Member` in `src/member/model.rs`.  The binary photo
blob is modelled as a list of byte values. -/
structure Member where
  username : String
  full_username : String
  first_name : String
  last_name : String
  common_name : String
  whatsapp : Bool
  joining : Nat
  listed : Bool
  official : Bool
  gender : Char
  active : Bool
  mobile : List String
  birthday : String
  mail : List String
  photo : List Nat
  titles : List String
  address : Option Address
deriving DecidableEq, Repr

/-- A directory group (register or executive role), `Group` in
`src/member/model.rs`.  `members` holds the fully qualified names of the
group members. -/
structure Group where
  name : String
  name_plural : String
  description : String
  members : List String
deriving DecidableEq, Repr

/-- A register together with its members, `RegisterEntry` in
`src/member/state.rs`. -/
structure RegisterEntry where
  register : Group
  members : List Member
deriving DecidableEq, Repr

/-- The six collections of the member cache, `MemberState` in
`src/member/state.rs`.  The Rust `HashSet` and `LinkedList` collections are
modelled as lists. -/
structure MemberState where
  all_members : List Member
  registers : List Group
  executives : List Group
  members_by_register : List RegisterEntry
  sutlers : List Member
  honorary_members : List Member
deriving DecidableEq, Repr

/-- Lookup of a member by username or mail address,
`Repository<String, Member>::find` for `AllMembers` in
`src/member/state.rs`: the first member whose username or one of whose mail
addresses matches case-insensitively. -/
def findMember (members : List Member) (id : String) : Option Member :=
  members.find? fun m =>
    eqIgnoreAsciiCase m.username id
      || m.mail.any fun mail => eqIgnoreAsciiCase mail id

/-- Jwt section of the configuration, `JwtConfig` in `src/config.rs`.
`expiration` is in minutes, `renewal_expiration` in hours, both `i64`. -/
structure JwtConfig where
  expiration : Int
  renewal_expiration : Int
  issuer : String
deriving DecidableEq, Repr

/-- Mapping from logical executive roles to directory group names,
`ExecutiveMapping` in `src/config.rs`. -/
structure ExecutiveMapping where
  archive : String
deriving DecidableEq, Repr

/-- Attribute names of the six address fields, `AddressMapping` in
`src/config.rs`. -/
structure AddressMapping where
  street : String
  house_number : String
  postal_code : String
  city : String
  state : String
  country_code : String
deriving DecidableEq, Repr

/-- The part of the ldap configuration used by the core, from `LdapConfig`
in `src/config.rs`. -/
structure LdapConfig where
  title_ordering : List String
  executive_mapping : ExecutiveMapping
  address_mapping : AddressMapping
deriving DecidableEq, Repr

/-- The part of the application configuration used by the core, from
`Config` in `src/config.rs`. -/
structure Config where
  jwt : JwtConfig
  ldap : LdapConfig
deriving DecidableEq, Repr

/-- The token payload, `Claims` in `src/user/tokens.rs`: subject, issuer,
expiration in epoch seconds (`u64`) and the renewal discriminant. -/
structure Claims where
  sub : String
  iss : String
  exp : Nat
  ren : Bool
deriving DecidableEq, Repr

/-- Asymmetric private key material (`PrivateKey` in `src/user/key.rs`).
`id` identifies the key pair; `wellFormed` models whether
`EncodingKey::from_rsa_pem` succeeds on the raw bytes. -/
structure PrivateKey where
  id : Nat
  wellFormed : Bool
deriving DecidableEq, Repr

/-- Asymmetric public key material (`PublicKey` in `src/user/key.rs`).
`wellFormed` models whether `DecodingKey::from_rsa_pem` succeeds. -/
structure PublicKey where
  id : Nat
  wellFormed : Bool
deriving DecidableEq, Repr

/-- The public half of a key pair. -/
def publicOf (k : PrivateKey) : PublicKey :=
  { id := k.id, wellFormed := true }

/-- Signing algorithms relevant to the model (`jsonwebtoken::Algorithm`). -/
inductive Alg where
  | RS512
  | RS256
  | HS256
deriving DecidableEq, Repr

/-- The raw claim set carried by a token before validation.  Each of the
four claims may be absent, which `decode_claims` must reject. -/
structure Payload where
  sub : Option String
  iss : Option String
  exp : Option Nat
  ren : Option Bool
deriving DecidableEq, Repr

/-- The payload serialized for a claim set produced by the application:
all four claims present. -/
def claimsPayload (c : Claims) : Payload :=
  { sub := some c.sub, iss := some c.iss, exp := some c.exp, ren := some c.ren }

/-- A symbolic RSA signature: it records which payload was signed, under
which algorithm, and with which private key. -/
structure Signature where
  alg : Alg
  payload : Payload
  key : Nat
deriving DecidableEq, Repr

/-- An encoded token: header algorithm, payload and signature. -/
structure Token where
  alg : Alg
  payload : Payload
  sig : Signature
deriving DecidableEq, Repr

/-- Raw signature check of a token against a public key: the signature must
cover this very payload under the header algorithm and stem from the
matching private key. -/
def signatureMatches (t : Token) (pk : PublicKey) : Bool :=
  t.sig.alg == t.alg && t.sig.payload == t.payload && t.sig.key == pk.id

/-- A token signature verifies against a public key when the key material is
readable and the raw signature check succeeds. -/
def verifiesSignature (t : Token) (pk : PublicKey) : Bool :=
  pk.wellFormed && signatureMatches t pk

/-- Sign a claim set with a private key, producing an encoded token
(the `jsonwebtoken::encode` call in `generate_token`). -/
def signToken (c : Claims) (k : PrivateKey) : Token :=
  { alg := Alg.RS512
    payload := claimsPayload c
    sig := { alg := Alg.RS512, payload := claimsPayload c, key := k.id } }

/-- Error kinds of token decoding and resolution, the subset of
`jsonwebtoken::errors::ErrorKind` reachable from this core. -/
inductive TokenError where
  | invalidToken
  | invalidSignature
  | invalidAlgorithm
  | invalidKeyFormat
  | missingRequiredClaim
  | expiredSignature
deriving DecidableEq, Repr

/-- Duration of a token in seconds: renewal hours or access minutes from
the configuration (`Duration::hours` and `Duration::minutes` in
`generate_token`). -/
def jwtDurationSecs (config : Config) (renewal : Bool) : Int :=
  if renewal then config.jwt.renewal_expiration * 3600
  else config.jwt.expiration * 60

/-- The Rust `as u64` cast on an `i64` epoch timestamp: wrapping reduction
into the range of 64-bit naturals. -/
def u64cast (i : Int) : Nat :=
  (i % (2 ^ 64 : Int)).toNat

/-- Token issuance, `generate_token` in `src/user/tokens.rs`: build the
claim set with the member username as subject, the configured issuer and
the expiration `now` plus the configured duration, then sign with the
private key.  An unreadable private key or an encoding failure yields
`Err(())`. -/
def generate_token (member : Member) (renewal : Bool) (config : Config)
    (private_key : PrivateKey) (now : Int) : Except Unit (Claims × Token) :=
  let expiration : Int := now + jwtDurationSecs config renewal
  let claims : Claims :=
    { sub := member.username
      iss := config.jwt.issuer
      exp := u64cast expiration
      ren := renewal }
  if private_key.wellFormed then
    Except.ok (claims, signToken claims private_key)
  else
    Except.error ()

/-- Resolution of a decoded claim set to a member,
`member_from_claims` in `src/user/tokens.rs`: reject when the renewal
discriminant differs from the expected one, then look the subject up in
the member cache. -/
def member_from_claims (claims : Claims) (renewal : Bool)
    (members : List Member) : Except TokenError Member :=
  if claims.ren != renewal then
    Except.error TokenError.invalidToken
  else
    match findMember members claims.sub with
    | some m => Except.ok m
    | none => Except.error TokenError.invalidToken

/-- Token decoding and validation, `decode_claims` in
`src/user/tokens.rs`: parse the public key, restrict the accepted
algorithms to `RS512`, verify the signature, require the `iss`, `sub`,
`ren` and `exp` claims to be present, and reject an expired token. -/
def decode_claims (token : Token) (public_key : PublicKey) (now : Nat) :
    Except TokenError Claims :=
  if public_key.wellFormed = false then
    Except.error TokenError.invalidKeyFormat
  else if ([Alg.RS512].contains token.alg) = false then
    Except.error TokenError.invalidAlgorithm
  else if signatureMatches token public_key = false then
    Except.error TokenError.invalidSignature
  else
    match token.payload.sub, token.payload.iss,
        token.payload.exp, token.payload.ren with
    | some sub, some iss, some exp, some ren =>
        if exp < now then Except.error TokenError.expiredSignature
        else Except.ok { sub := sub, iss := iss, exp := exp, ren := ren }
    | _, _, _, _ => Except.error TokenError.missingRequiredClaim

/-- A raw directory search result, `ldap3::SearchEntry`: the resolved
distinguished name and the attribute map (modelled as an association
list, keys unique as in the Rust `HashMap`). -/
structure SearchEntry where
  dn : String
  attrs : List (String × List String)
deriving DecidableEq, Repr

/-- Lookup in the attribute map, `HashMap::get`. -/
def lookupAttr (attrs : List (String × List String)) (attrName : String) :
    Option (List String) :=
  (attrs.find? fun p => p.1 == attrName).map (·.2)

/-- Values of an attribute, or a single blank string when the attribute is
absent, `string_or_blank` in `src/member/model.rs`. -/
def string_or_blank (attrName : String)
    (attrs : List (String × List String)) : List String :=
  (lookupAttr attrs attrName).getD [""]

/-- Whether the attribute map contains all the given keys, `contains_all`
in `src/member/model.rs`: the per-key containment checks are reduced by
conjunction, an empty key list yielding `false`. -/
def contains_all (attrs : List (String × List String))
    (keys : List String) : Bool :=
  match keys.map (fun k => attrs.any fun p => p.1 == k) with
  | [] => false
  | b :: bs => bs.foldl (fun k l => k && l) b

/-- Address deserialization, `Address::from_search_entry` in
`src/member/model.rs`: the address is built only when every one of the six
mapped attributes is present, and each field takes the first value of its
attribute. -/
def Address.from_search_entry (entry : SearchEntry) (config : Config) :
    Option Address :=
  let attrs := entry.attrs
  let mapping := config.ldap.address_mapping
  if contains_all attrs
      [mapping.country_code, mapping.postal_code, mapping.city,
        mapping.house_number, mapping.state, mapping.street] = false then
    none
  else
    some
      { street := (string_or_blank mapping.street attrs).headD ""
        house_number := (string_or_blank mapping.house_number attrs).headD ""
        postal_code := (string_or_blank mapping.postal_code attrs).headD ""
        city := (string_or_blank mapping.city attrs).headD ""
        state := (string_or_blank mapping.state attrs).headD ""
        country_code := (string_or_blank mapping.country_code attrs).headD "" }

/-- An error of the directory client, `ldap3::LdapError`. -/
inductive LdapError where
  | err (msg : String)
deriving DecidableEq, Repr

/-- Insertion of an element into a list sorted by `le`. -/
def sortedInsert (le : α → α → Bool) (x : α) : List α → List α
  | [] => [x]
  | y :: ys => if le x y then x :: y :: ys else y :: sortedInsert le x ys

/-- Insertion sort by `le`, the model of the Rust in-place `sort`. -/
def sortBy (le : α → α → Bool) (l : List α) : List α :=
  l.foldr (sortedInsert le) []

/-- The member ordering of `Ord for Member` in `src/member/model.rs`:
joining year, then last name, then first name. -/
def memberCmp (a b : Member) : Ordering :=
  ((compare a.joining b.joining).then
    (compare a.last_name b.last_name)).then
    (compare a.first_name b.first_name)

/-- Boolean form of the member ordering. -/
def memberLe (a b : Member) : Bool :=
  !(memberCmp a b == Ordering.gt)

/-- Boolean form of the group ordering of `Ord for Group`: by name. -/
def groupLe (a b : Group) : Bool :=
  !(compare a.name b.name == Ordering.gt)

/-- Sort key of a title, `sort_titles_vector` in `src/ldap/sync.rs`: the
position in the configured title ordering, defaulting to zero. -/
def titleKey (conf : Config) (t : String) : Nat :=
  (conf.ldap.title_ordering.findIdx? fun e => e == t).getD 0

/-- Per-member title sorting, `sort_titles_attributes` in
`src/ldap/sync.rs`. -/
def sort_titles_attributes (conf : Config) (members : List Member) :
    List Member :=
  members.map fun m =>
    { m with
        titles := sortBy (fun a b => Nat.ble (titleKey conf a) (titleKey conf b)) m.titles }

/-- The member vector after the sorting steps of
`fill_primitive_collections`: sorted by the member ordering, titles
re-sorted per configuration. -/
def sortedMembersVector (conf : Config) (mv : List Member) : List Member :=
  sort_titles_attributes conf (sortBy memberLe mv)

/-- The five primitive collection updates of `fill_primitive_collections`
in `src/ldap/sync.rs`: clear and repopulate all members, sutlers,
honorary members, registers (sorted) and executives (unsorted). -/
def fill_primitive_collections (conf : Config) (st : MemberState)
    (mv sv hv : List Member) (rv ev : List Group) : MemberState :=
  { st with
      all_members := sortedMembersVector conf mv
      sutlers := sort_titles_attributes conf (sortBy memberLe sv)
      honorary_members := sort_titles_attributes conf (sortBy memberLe hv)
      registers := sortBy groupLe rv
      executives := ev }

/-- Rebuild of the members-by-register collection,
`construct_members_by_register` in `src/ldap/sync.rs`: for each register,
the members whose fully qualified name appears in its member list. -/
def construct_members_by_register (st : MemberState)
    (member_result : List Member) (registers_result : List Group) :
    MemberState :=
  { st with
      members_by_register := registers_result.map fun register =>
        { register := register
          members := member_result.filter fun m =>
            register.members.contains m.full_username } }

/-- The all-or-nothing combination of the five directory fetches,
`fetch_results` in `src/ldap/sync.rs`: the question-mark operator makes the
first failing fetch fail the whole call. -/
def fetch_results (fm fs fh : Except LdapError (List Member))
    (fr fe : Except LdapError (List Group)) :
    Except LdapError
      (List Member × List Member × List Member × List Group × List Group) :=
  match fm with
  | Except.error e => Except.error e
  | Except.ok members =>
  match fs with
  | Except.error e => Except.error e
  | Except.ok sutlers =>
  match fh with
  | Except.error e => Except.error e
  | Except.ok honoraries =>
  match fr with
  | Except.error e => Except.error e
  | Except.ok registers =>
  match fe with
  | Except.error e => Except.error e
  | Except.ok executives =>
    Except.ok (members, sutlers, honoraries, registers, executives)

/-- One synchronization cycle, `synchronize_members_and_groups` in
`src/ldap/sync.rs`, with the five fetch outcomes as inputs: on any fetch
failure the member state is returned untouched; on success the write lock
is taken and all collections are replaced. -/
def synchronize_members_and_groups (conf : Config)
    (fm fs fh : Except LdapError (List Member))
    (fr fe : Except LdapError (List Group)) (st : MemberState) :
    MemberState :=
  match fetch_results fm fs fh fr fe with
  | Except.error _ => st
  | Except.ok (mv, sv, hv, rv, ev) =>
      let st1 := fill_primitive_collections conf st mv sv hv rv ev
      construct_members_by_register st1 (sortedMembersVector conf mv)
        (sortBy groupLe rv)

/-- Lookup of an executive group by its plural name, case-insensitively,
from the request guard in `src/user/executives.rs`. -/
def findExecutiveGroup (executives : List Group) (group_name : String) :
    Option Group :=
  executives.find? fun g => eqIgnoreAsciiCase g.name_plural group_name

/-- The role check of the `ExecutiveRole` request guard in
`src/user/executives.rs`: the group with the configured plural name must
exist and the fully qualified member name must appear, case-insensitively,
in its member list. -/
def authorize (member : Member) (group_name : String)
    (executives : List Group) : Bool :=
  match findExecutiveGroup executives group_name with
  | some g => g.members.any fun x => eqIgnoreAsciiCase x member.full_username
  | none => false

/-- Outcome of a request guard, the shape of `rocket::Outcome` used here. -/
inductive GuardOutcome where
  | success
  | forward
deriving DecidableEq, Repr

/-- The `ExecutiveRole` guard on a request whose member resolution already
finished: a resolved member is authorized through `authorize`, everything
else forwards (a denial, never an error). -/
def executive_role_from_request (member_outcome : Option Member)
    (group_name : String) (executives : List Group) : GuardOutcome :=
  match member_outcome with
  | some member =>
      if authorize member group_name executives then GuardOutcome.success
      else GuardOutcome.forward
  | none => GuardOutcome.forward

/-- Authentication errors, `AuthenticationError` in `src/ldap/auth.rs`. -/
inductive AuthError where
  | nonExistingUsername (u : String)
  | session
  | bind (u : String)
  | credentials (u : String)
deriving DecidableEq, Repr

/-- The generic error body, `ApiError` in `src/openapi.rs`. -/
structure ApiError where
  err : String
  msg : Option String
  http_status_code : Nat
deriving DecidableEq, Repr

/-- The deliberately vague authentication failure body,
`authorization_error` in `src/user/auth.rs`. -/
def authorization_error : ApiError :=
  { err := "Authentication Failure"
    msg := some "Something went wrong during the authentication either wrong credentials or server errors, due to security reasons no more details are provided."
    http_status_code := 401 }

/-- The authentication responder state, `AuthenticationResponder` in
`src/user/auth.rs`, with the issued tokens in symbolic form. -/
structure AuthenticationResponder where
  request_token : Option Token
  request_token_required : Bool
  renewal_token : Option Token
  renewal_token_required : Bool
deriving DecidableEq, Repr

/-- The `login` route of `src/user/self_service.rs` after the directory
bind finished: an authentication failure yields the responder with no
tokens; a success issues the access and the renewal token, either of which
may fail to sign. -/
def login (auth_result : Except AuthError Member) (config : Config)
    (private_key : PrivateKey) (now : Int) : AuthenticationResponder :=
  match auth_result with
  | Except.error _ =>
      { request_token := none
        request_token_required := true
        renewal_token := none
        renewal_token_required := true }
  | Except.ok member =>
      let request_token := generate_token member false config private_key now
      let renewal_token := generate_token member true config private_key now
      { request_token := (request_token.toOption).map (·.2)
        request_token_required := true
        renewal_token := (renewal_token.toOption).map (·.2)
        renewal_token_required := true }

/-- The outward HTTP response of the login route. -/
inductive LoginResponse where
  | unauthorized (body : ApiError)
  | okTokens (request_token : Option Token) (renewal_token : Option Token)
deriving DecidableEq, Repr

/-- The responder implementation, `Responder for AuthenticationResponder`
in `src/user/auth.rs`: a missing required token yields the generic 401
body, otherwise the tokens are attached as headers. -/
def respond_to (r : AuthenticationResponder) : LoginResponse :=
  if (r.request_token.isNone && r.request_token_required)
      || (r.renewal_token.isNone && r.renewal_token_required) then
    LoginResponse.unauthorized authorization_error
  else
    LoginResponse.okTokens r.request_token r.renewal_token

/-- Events of the synchronization writer on the shared cache: taking the
exclusive write guard, one primitive mutation, releasing the guard. -/
inductive WriterEvent where
  | acquire
  | mutate (f : MemberState → MemberState)
  | release

/-- A step of an interleaved execution: a writer event or a reader taking
a snapshot of the cache. -/
inductive Step where
  | writerStep (e : WriterEvent)
  | readStep

/-- The writer events of a schedule, in order. -/
def wproj : List Step → List WriterEvent
  | [] => []
  | Step.writerStep e :: rest => e :: wproj rest
  | Step.readStep :: rest => wproj rest

/-- Lock discipline of the reader-writer lock: a reader snapshot and a
fresh acquire may happen only while the write guard is free, and mutation
and release only while it is held. -/
def validSched : List Step → Bool → Bool
  | [], _ => true
  | Step.readStep :: rest, lock => !lock && validSched rest lock
  | Step.writerStep WriterEvent.acquire :: rest, lock =>
      !lock && validSched rest true
  | Step.writerStep (WriterEvent.mutate _) :: rest, lock =>
      lock && validSched rest lock
  | Step.writerStep WriterEvent.release :: rest, lock =>
      lock && validSched rest false

/-- The cache snapshots taken by the readers of a schedule. -/
def readerSnapshots : List Step → Bool → MemberState → List MemberState
  | [], _, _ => []
  | Step.readStep :: rest, lock, st => st :: readerSnapshots rest lock st
  | Step.writerStep WriterEvent.acquire :: rest, _, st =>
      readerSnapshots rest true st
  | Step.writerStep (WriterEvent.mutate f) :: rest, lock, st =>
      readerSnapshots rest lock (f st)
  | Step.writerStep WriterEvent.release :: rest, _, st =>
      readerSnapshots rest false st

/-- The writer events of one successful synchronization cycle, from
`synchronize_members_and_groups` in `src/ldap/sync.rs`: one acquisition of
the write guard, the primitive collection fill, the members-by-register
rebuild, one release. -/
def syncWriterEvents (conf : Config) (mv sv hv : List Member)
    (rv ev : List Group) : List WriterEvent :=
  [WriterEvent.acquire,
   WriterEvent.mutate fun st => fill_primitive_collections conf st mv sv hv rv ev,
   WriterEvent.mutate fun st =>
     construct_members_by_register st (sortedMembersVector conf mv)
       (sortBy groupLe rv),
   WriterEvent.release]

/-- A concrete configuration for witnesses, with the default jwt values of
`src/config.rs`. -/
def exConfig : Config :=
  { jwt := { expiration := 120, renewal_expiration := 8760, issuer := "keg" }
    ldap :=
      { title_ordering := ["Obmann", "Kapellmeister"]
        executive_mapping := { archive := "Archivare" }
        address_mapping :=
          { street := "street"
            house_number := "houseNumber"
            postal_code := "postalCode"
            city := "city"
            state := "state"
            country_code := "countryCode" } } }

/-- A concrete member for witnesses. -/
def exMember : Member :=
  { username := "karli"
    full_username := "uid=karli,ou=people,dc=example,dc=org"
    first_name := "Karl"
    last_name := "Steinscheisser"
    common_name := "Karl Steinscheisser"
    whatsapp := false
    joining := 2003
    listed := true
    official := true
    gender := 'm'
    active := true
    mobile := []
    birthday := "1996-05-06"
    mail := ["karli@example.org"]
    photo := []
    titles := []
    address := none }

/-- A readable private key for witnesses. -/
def exGoodKey : PrivateKey := { id := 7, wellFormed := true }

/-- An unreadable private key for witnesses, modelling a key file whose
bytes `EncodingKey::from_rsa_pem` rejects. -/
def exBadKey : PrivateKey := { id := 7, wellFormed := false }

/-- A concrete executive group for witnesses, containing the fully
qualified name of `exMember`. -/
def exArchiveGroup : Group :=
  { name := "Archivar"
    name_plural := "Archivare"
    description := "keeps the archive"
    members := ["UID=Karli,ou=people,dc=example,dc=org"] }

/-- A concrete member state for witnesses. -/
def exState : MemberState :=
  { all_members := [exMember]
    registers := []
    executives := [exArchiveGroup]
    members_by_register := []
    sutlers := []
    honorary_members := [] }

/-- A concrete schedule for the atomicity witness: one reader snapshot
before the writer critical section and one after it. -/
def exSchedule : List Step :=
  Step.readStep ::
    ((syncWriterEvents exConfig [exMember] [] [] [] [exArchiveGroup]).map
      Step.writerStep ++ [Step.readStep])

/-- Claims of a renewal token for witnesses. -/
def exRenewalClaims : Claims :=
  { sub := "karli", iss := "keg", exp := 1000000, ren := true }

/-- A search entry carrying all six address attributes, for witnesses. -/
def exEntryFull : SearchEntry :=
  { dn := "uid=karli,ou=people,dc=example,dc=org"
    attrs :=
      [("street", ["Kempfendorf"]), ("houseNumber", ["2"]),
        ("postalCode", ["2285"]), ("city", ["Leopoldsdorf"]),
        ("state", ["Niederoesterreich"]), ("countryCode", ["AT"])] }

/-- A search entry carrying only five of the six address attributes, for
witnesses. -/
def exEntryFive : SearchEntry :=
  { dn := "uid=karli,ou=people,dc=example,dc=org"
    attrs :=
      [("street", ["Kempfendorf"]), ("houseNumber", ["2"]),
        ("postalCode", ["2285"]), ("city", ["Leopoldsdorf"]),
        ("state", ["Niederoesterreich"])] }

/-- Spec-side formulation for the address claim: whether the entry carries
the attribute at all. -/
def hasAttr (entry : SearchEntry) (attrName : String) : Bool :=
  (lookupAttr entry.attrs attrName).isSome

/-- Spec-side formulation for the address claim: the first value of the
attribute in the entry. -/
def firstAttrValue (entry : SearchEntry) (attrName : String) : String :=
  (string_or_blank attrName entry.attrs).headD ""

/-- C1: resolving decoded claims fails whenever the renewal discriminant of
the claims differs from the expected flag, for every claim set, expected
flag and member cache: a renewal token is rejected by an access-token
consumer and vice versa. -/
theorem member_from_claims_rejects_wrong_discriminant
    (claims : Claims) (renewal : Bool) (members : List Member)
    (h : claims.ren ≠ renewal) :
    member_from_claims claims renewal members =
      Except.error TokenError.invalidToken := by
  unfold member_from_claims
  have hb : (claims.ren != renewal) = true := by
    cases hc : claims.ren <;> cases hr : renewal <;> simp_all
  simp [hb]

/-- Witness for C1 at a concrete renewal claim set validated with the
access expectation. -/
theorem member_from_claims_rejects_wrong_discriminant_witness :
    member_from_claims exRenewalClaims false [exMember] =
      Except.error TokenError.invalidToken :=
  member_from_claims_rejects_wrong_discriminant exRenewalClaims false
    [exMember] (by decide)

/-- C2: decoding returns a claim set exactly when the signature verifies
against the public key under the single accepted algorithm RS512, all four
claims (subject, issuer, expiration, discriminant) are present, and the
expiration is not in the past; in particular an expired token fails
regardless of signature validity. -/
theorem decode_claims_ok_iff (t : Token) (pk : PublicKey) (now : Nat)
    (c : Claims) :
    decode_claims t pk now = Except.ok c ↔
      (verifiesSignature t pk = true ∧ t.alg = Alg.RS512 ∧
        t.payload = claimsPayload c ∧ now ≤ c.exp) := by
  rcases t with ⟨alg, ⟨so, io, eo, ro⟩, sg⟩
  rcases pk with ⟨kid, wf⟩
  rcases c with ⟨cs, ci, ce, cr⟩
  simp only [decode_claims, verifiesSignature, claimsPayload]
  cases wf
  · simp
  · cases alg <;>
      simp only [List.contains, List.elem, BEq.beq] <;>
      [skip;
       simp [decide_eq_true_eq];
       simp [decide_eq_true_eq]]
    by_cases hb :
        signatureMatches ⟨Alg.RS512, ⟨so, io, eo, ro⟩, sg⟩ ⟨kid, true⟩ = true
    · rw [hb]
      cases so <;> cases io <;> cases eo <;> cases ro <;>
        simp_all [Payload.mk.injEq]
      next s i e r =>
        split_ifs with he
        · simp only [false_iff]
          rintro ⟨⟨h1, h2, h3, h4⟩, h5⟩
          omega
        · simp only [Except.ok.injEq, Claims.mk.injEq]
          constructor
          · rintro ⟨h1, h2, h3, h4⟩
            subst h1; subst h2; subst h3; subst h4
            exact ⟨⟨rfl, rfl, rfl, rfl⟩, by omega⟩
          · rintro ⟨⟨h1, h2, h3, h4⟩, h5⟩
            exact ⟨h1, h2, h3, h4⟩
    · simp only [Bool.not_eq_true] at hb
      simp [hb]

/-- Helper: a token signed by the application decodes back to its claim
set under the matching public key whenever it is not yet expired. -/
theorem decode_signToken (c : Claims) (k : PrivateKey) (now : Nat)
    (hexp : now ≤ c.exp) :
    decode_claims (signToken c k) (publicOf k) now = Except.ok c := by
  rcases c with ⟨cs, ci, ce, cr⟩
  simp only [decode_claims, signToken, publicOf, signatureMatches,
    claimsPayload, List.contains, List.elem]
  simp [Nat.not_lt.mpr hexp]

/-- Helper: the member lookup finds a member by its own username. -/
theorem findMember_self (m : Member) : findMember [m] m.username = some m := by
  simp [findMember, eqIgnoreAsciiCase]

/-- C3: if any one of the five directory fetches of a synchronization
cycle fails, the member cache state after the cycle is identical to its
state before it; none of the six collections is modified. -/
theorem sync_untouched_on_fetch_failure (conf : Config)
    (fm fs fh : Except LdapError (List Member))
    (fr fe : Except LdapError (List Group)) (st : MemberState)
    (h : (∃ e, fm = Except.error e) ∨ (∃ e, fs = Except.error e) ∨
      (∃ e, fh = Except.error e) ∨ (∃ e, fr = Except.error e) ∨
      (∃ e, fe = Except.error e)) :
    synchronize_members_and_groups conf fm fs fh fr fe st = st := by
  rcases h with ⟨e, he⟩ | ⟨e, he⟩ | ⟨e, he⟩ | ⟨e, he⟩ | ⟨e, he⟩ <;> subst he
  · simp [synchronize_members_and_groups, fetch_results]
  · cases fm <;> simp [synchronize_members_and_groups, fetch_results]
  · cases fm <;> cases fs <;>
      simp [synchronize_members_and_groups, fetch_results]
  · cases fm <;> cases fs <;> cases fh <;>
      simp [synchronize_members_and_groups, fetch_results]
  · cases fm <;> cases fs <;> cases fh <;> cases fr <;>
      simp [synchronize_members_and_groups, fetch_results]

/-- Witness for C3: a failing members fetch leaves a concrete populated
cache untouched. -/
theorem sync_untouched_on_fetch_failure_witness :
    synchronize_members_and_groups exConfig
      (Except.error (LdapError.err "directory unreachable"))
      (Except.ok []) (Except.ok []) (Except.ok []) (Except.ok [])
      exState = exState :=
  sync_untouched_on_fetch_failure exConfig
    (Except.error (LdapError.err "directory unreachable"))
    (Except.ok []) (Except.ok []) (Except.ok []) (Except.ok []) exState
    (Or.inl ⟨LdapError.err "directory unreachable", rfl⟩)

/-- C5: issuing a token for a principal, decoding it with the matching
public key and resolving the claims with the same expected flag against a
cache containing the principal returns the principal itself. -/
theorem token_round_trip (m : Member) (renewal : Bool) (config : Config)
    (k : PrivateKey) (now : Nat)
    (hk : k.wellFormed = true)
    (hdur : 0 ≤ jwtDurationSecs config renewal)
    (hbound : (now : Int) + jwtDurationSecs config renewal < 2 ^ 64) :
    ∃ c t,
      generate_token m renewal config k (now : Int) = Except.ok (c, t) ∧
      decode_claims t (publicOf k) now = Except.ok c ∧
      member_from_claims c renewal [m] = Except.ok m := by
  have hv : (0 : Int) ≤ (now : Int) + jwtDurationSecs config renewal :=
    Int.add_nonneg (Int.natCast_nonneg now) hdur
  have hcast : u64cast ((now : Int) + jwtDurationSecs config renewal)
      = ((now : Int) + jwtDurationSecs config renewal).toNat := by
    unfold u64cast
    rw [Int.emod_eq_of_lt hv hbound]
  refine
    ⟨{ sub := m.username, iss := config.jwt.issuer,
        exp := u64cast ((now : Int) + jwtDurationSecs config renewal),
        ren := renewal },
      signToken
        { sub := m.username, iss := config.jwt.issuer,
          exp := u64cast ((now : Int) + jwtDurationSecs config renewal),
          ren := renewal } k, ?_, ?_, ?_⟩
  · simp [generate_token, hk]
  · apply decode_signToken
    show now ≤ u64cast _
    rw [hcast]
    have := Int.toNat_of_nonneg hv
    omega
  · simp [member_from_claims, findMember_self]

/-- Witness for C5 at a concrete member, the default configuration and a
concrete key pair. -/
theorem token_round_trip_witness :
    ∃ c t,
      generate_token exMember false exConfig exGoodKey ((0 : Nat) : Int) =
        Except.ok (c, t) ∧
      decode_claims t (publicOf exGoodKey) 0 = Except.ok c ∧
      member_from_claims c false [exMember] = Except.ok exMember :=
  token_round_trip exMember false exConfig exGoodKey 0 (by decide)
    (by decide) (by decide)

/-- Counterexample for C6: token issuance sets the subject to the short
username of the member, which differs from the fully qualified directory
name of a concrete member. -/
theorem generate_token_subject_cex :
    ∃ c t,
      generate_token exMember false exConfig exGoodKey 0 =
        Except.ok (c, t) ∧ c.sub ≠ exMember.full_username := by
  refine ⟨_, _, rfl, ?_⟩
  decide

/-- C6 amended: token issuance sets the subject of the claims to the short
username attribute of the member (the field the cache lookup matches
against), not to the fully qualified directory name. -/
theorem generate_token_subject_is_username (m : Member) (renewal : Bool)
    (config : Config) (k : PrivateKey) (now : Int) (c : Claims) (t : Token)
    (h : generate_token m renewal config k now = Except.ok (c, t)) :
    c.sub = m.username := by
  unfold generate_token at h
  cases hw : k.wellFormed <;> rw [hw] at h <;> simp at h
  exact h.1 ▸ rfl

/-- Witness for the amended C6 at a concrete issuance. -/
theorem generate_token_subject_is_username_witness :
    ({ sub := "karli", iss := "keg",
        exp := u64cast ((0 : Int) + jwtDurationSecs exConfig false),
        ren := false } : Claims).sub = exMember.username :=
  generate_token_subject_is_username exMember false exConfig exGoodKey 0 _
    (signToken
      { sub := "karli", iss := "keg",
        exp := u64cast ((0 : Int) + jwtDurationSecs exConfig false),
        ren := false } exGoodKey) rfl

/-- C8: the value of the issuer claim is never compared against the
configured issuer.  A token signed over any issuer string decodes
successfully when its signature, claim presence and expiration checks
pass, and claim resolution is entirely independent of the issuer value. -/
theorem issuer_value_never_validated (c : Claims) (s : String)
    (k : PrivateKey) (now : Nat) (renewal : Bool) (members : List Member)
    (hexp : now ≤ c.exp) :
    decode_claims (signToken c k) (publicOf k) now = Except.ok c ∧
    member_from_claims { c with iss := s } renewal members =
      member_from_claims c renewal members :=
  ⟨decode_signToken c k now hexp, rfl⟩

/-- Witness for C8 at a concrete claim set with a foreign issuer value. -/
theorem issuer_value_never_validated_witness :
    decode_claims (signToken exRenewalClaims exGoodKey) (publicOf exGoodKey)
        0 = Except.ok exRenewalClaims ∧
    member_from_claims { exRenewalClaims with iss := "unrelated issuer" }
        true [exMember] =
      member_from_claims exRenewalClaims true [exMember] :=
  issuer_value_never_validated exRenewalClaims "unrelated issuer" exGoodKey
    0 true [exMember] (by decide)

/-- Helper: presence of an attribute in the map coincides with the
containment check used by `contains_all`. -/
theorem lookupAttr_isSome (attrs : List (String × List String))
    (k : String) :
    (lookupAttr attrs k).isSome = attrs.any fun p => p.1 == k := by
  induction attrs with
  | nil => rfl
  | cons a l ih =>
      simp only [lookupAttr] at ih
      cases h : (a.1 == k) <;>
        simp [lookupAttr, List.find?, h, ih, List.any_cons]

/-- C7: role authorization is granted exactly when an executive group
whose plural name case-insensitively equals the configured group name is
in the cache and the fully qualified member name case-insensitively
appears in its member list (assuming the matching group is unambiguous, as
group names in the directory are); an entirely absent group forwards the
request, a denial rather than an error. -/
theorem executive_authorization_fail_closed (member : Member)
    (group_name : String) (executives : List Group)
    (huniq : ∀ g1 ∈ executives, ∀ g2 ∈ executives,
      eqIgnoreAsciiCase g1.name_plural group_name = true →
      eqIgnoreAsciiCase g2.name_plural group_name = true → g1 = g2) :
    (authorize member group_name executives = true ↔
      ∃ g ∈ executives,
        eqIgnoreAsciiCase g.name_plural group_name = true ∧
        ∃ x ∈ g.members,
          eqIgnoreAsciiCase x member.full_username = true) ∧
    (findExecutiveGroup executives group_name = none →
      executive_role_from_request (some member) group_name executives =
        GuardOutcome.forward) := by
  constructor
  · constructor
    · intro h
      unfold authorize at h
      cases hf : findExecutiveGroup executives group_name with
      | none => rw [hf] at h; exact absurd h (by simp)
      | some g =>
          rw [hf] at h
          unfold findExecutiveGroup at hf
          have hpg := List.find?_some hf
          refine ⟨g, List.mem_of_find?_eq_some hf, hpg, ?_⟩
          simpa [List.any_eq_true] using h
    · rintro ⟨g, hg, hp, x, hx, hxe⟩
      unfold authorize
      cases hf : findExecutiveGroup executives group_name with
      | none =>
          unfold findExecutiveGroup at hf
          have hnone := List.find?_eq_none.mp hf g hg
          exact absurd hp hnone
      | some g2 =>
          have hf2 := hf
          unfold findExecutiveGroup at hf2
          have hpg2 := List.find?_some hf2
          have hg2 : g2 = g :=
            huniq g2 (List.mem_of_find?_eq_some hf2) g hg hpg2 hp
          subst hg2
          exact List.any_eq_true.mpr ⟨x, hx, hxe⟩
  · intro hf
    simp [executive_role_from_request, authorize, hf]

/-- Witness for C7 at a concrete cache with the archive group present and
containing the member under a different letter case. -/
theorem executive_authorization_fail_closed_witness :
    (authorize exMember "Archivare" [exArchiveGroup] = true ↔
      ∃ g ∈ [exArchiveGroup],
        eqIgnoreAsciiCase g.name_plural "Archivare" = true ∧
        ∃ x ∈ g.members,
          eqIgnoreAsciiCase x exMember.full_username = true) ∧
    (findExecutiveGroup [exArchiveGroup] "Archivare" = none →
      executive_role_from_request (some exMember) "Archivare"
          [exArchiveGroup] =
        GuardOutcome.forward) :=
  executive_authorization_fail_closed exMember "Archivare" [exArchiveGroup]
    (by
      intro g1 h1 g2 h2 _ _
      simp only [List.mem_singleton] at h1 h2
      rw [h1, h2])

/-- C9: the deserialized address is present exactly when all six mapped
address attributes are present in the entry, and then every one of its
fields is populated from the first value of its attribute; with any
attribute missing the address is entirely absent. -/
theorem address_all_or_nothing (entry : SearchEntry) (config : Config) :
    Address.from_search_entry entry config =
      if hasAttr entry config.ldap.address_mapping.street &&
          hasAttr entry config.ldap.address_mapping.house_number &&
          hasAttr entry config.ldap.address_mapping.postal_code &&
          hasAttr entry config.ldap.address_mapping.city &&
          hasAttr entry config.ldap.address_mapping.state &&
          hasAttr entry config.ldap.address_mapping.country_code then
        some
          { street := firstAttrValue entry config.ldap.address_mapping.street
            house_number :=
              firstAttrValue entry config.ldap.address_mapping.house_number
            postal_code :=
              firstAttrValue entry config.ldap.address_mapping.postal_code
            city := firstAttrValue entry config.ldap.address_mapping.city
            state := firstAttrValue entry config.ldap.address_mapping.state
            country_code :=
              firstAttrValue entry config.ldap.address_mapping.country_code }
      else none := by
  rcases entry with ⟨dn, attrs⟩
  simp only [Address.from_search_entry, contains_all, List.map, hasAttr,
    firstAttrValue, lookupAttr_isSome, List.foldl]
  cases h1 : attrs.any fun p => p.1 == config.ldap.address_mapping.street <;>
    cases h2 : attrs.any fun p =>
      p.1 == config.ldap.address_mapping.house_number <;>
    cases h3 : attrs.any fun p =>
      p.1 == config.ldap.address_mapping.postal_code <;>
    cases h4 : attrs.any fun p => p.1 == config.ldap.address_mapping.city <;>
    cases h5 : attrs.any fun p => p.1 == config.ldap.address_mapping.state <;>
    cases h6 : attrs.any fun p =>
      p.1 == config.ldap.address_mapping.country_code <;>
    simp [h1, h2, h3, h4, h5, h6]

/-- Counterexample for C10: the response to a failed directory bind and
the response to a successful bind whose token issuance fails on an
unreadable private key are one and the same generic 401 body. -/
theorem login_failure_modes_same_response_cex :
    respond_to
        (login (Except.error (AuthError.credentials "karli")) exConfig
          exGoodKey 0) =
      respond_to (login (Except.ok exMember) exConfig exBadKey 0) ∧
    respond_to
        (login (Except.error (AuthError.credentials "karli")) exConfig
          exGoodKey 0) =
      LoginResponse.unauthorized authorization_error :=
  ⟨rfl, rfl⟩

/-- C10 amended: when token issuance fails after a successful
authentication, the login response is the same generic 401 body that a
failed authentication produces; the two failure modes are not
distinguishable in the response surfaced to the end user. -/
theorem login_failure_modes_indistinguishable (e : AuthError) (m : Member)
    (config : Config) (k1 k2 : PrivateKey) (now1 now2 : Int)
    (hk2 : k2.wellFormed = false) :
    respond_to (login (Except.error e) config k1 now1) =
      LoginResponse.unauthorized authorization_error ∧
    respond_to (login (Except.ok m) config k2 now2) =
      LoginResponse.unauthorized authorization_error := by
  constructor
  · rfl
  · simp [login, generate_token, hk2, respond_to, Except.toOption]

/-- Witness for the amended C10 at concrete inputs. -/
theorem login_failure_modes_indistinguishable_witness :
    respond_to
        (login (Except.error (AuthError.credentials "karli")) exConfig
          exGoodKey 0) =
      LoginResponse.unauthorized authorization_error ∧
    respond_to (login (Except.ok exMember) exConfig exBadKey 0) =
      LoginResponse.unauthorized authorization_error :=
  login_failure_modes_indistinguishable (AuthError.credentials "karli")
    exMember exConfig exGoodKey exBadKey 0 0 rfl

/-- Helper: under the lock discipline of the reader-writer lock, a reader
snapshot taken around a writer critical section of one acquire, two
mutations and one release is either the state before the section or the
state after it. -/
theorem snapshots_old_or_new (f g : MemberState → MemberState)
    (st0 : MemberState) :
    ∀ (s : List Step) (lock : Bool) (st : MemberState),
    validSched s lock = true →
    ((lock = false ∧ st = st0 ∧
        wproj s = [WriterEvent.acquire, WriterEvent.mutate f,
          WriterEvent.mutate g, WriterEvent.release]) ∨
      (lock = true ∧ st = st0 ∧
        wproj s = [WriterEvent.mutate f, WriterEvent.mutate g,
          WriterEvent.release]) ∨
      (lock = true ∧ st = f st0 ∧
        wproj s = [WriterEvent.mutate g, WriterEvent.release]) ∨
      (lock = true ∧ st = g (f st0) ∧ wproj s = [WriterEvent.release]) ∨
      (lock = false ∧ st = g (f st0) ∧ wproj s = [])) →
    ∀ x ∈ readerSnapshots s lock st, x = st0 ∨ x = g (f st0) := by
  intro s
  induction s with
  | nil =>
      intro lock st _ _ x hx
      simp [readerSnapshots] at hx
  | cons step rest ih =>
      intro lock st hval hphase x hx
      cases step with
      | readStep =>
          rcases hphase with ⟨hl, h2, hw⟩ | ⟨hl, h2, hw⟩ | ⟨hl, h2, hw⟩ |
            ⟨hl, h2, hw⟩ | ⟨hl, h2, hw⟩
          · subst hl
            rw [validSched] at hval
            simp only [Bool.not_false, Bool.true_and] at hval
            have hx' : x ∈ st :: readerSnapshots rest false st := hx
            rcases List.mem_cons.mp hx' with rfl | htail
            · exact Or.inl h2
            · exact ih false st hval (Or.inl ⟨rfl, h2, hw⟩) x htail
          · subst hl; rw [validSched] at hval; simp at hval
          · subst hl; rw [validSched] at hval; simp at hval
          · subst hl; rw [validSched] at hval; simp at hval
          · subst hl
            rw [validSched] at hval
            simp only [Bool.not_false, Bool.true_and] at hval
            have hx' : x ∈ st :: readerSnapshots rest false st := hx
            rcases List.mem_cons.mp hx' with rfl | htail
            · exact Or.inr h2
            · exact ih false st hval
                (Or.inr (Or.inr (Or.inr (Or.inr ⟨rfl, h2, hw⟩)))) x htail
      | writerStep e =>
          cases e with
          | acquire =>
              rcases hphase with ⟨hl, h2, hw⟩ | ⟨hl, h2, hw⟩ |
                ⟨hl, h2, hw⟩ | ⟨hl, h2, hw⟩ | ⟨hl, h2, hw⟩
              · subst hl
                rw [validSched] at hval
                simp only [Bool.not_false, Bool.true_and] at hval
                have hw' : WriterEvent.acquire :: wproj rest =
                    [WriterEvent.acquire, WriterEvent.mutate f,
                      WriterEvent.mutate g, WriterEvent.release] := hw
                simp only [List.cons.injEq, true_and] at hw'
                have hx' : x ∈ readerSnapshots rest true st := hx
                exact ih true st hval
                  (Or.inr (Or.inl ⟨rfl, h2, hw'⟩)) x hx'
              · subst hl; rw [validSched] at hval; simp at hval
              · subst hl; rw [validSched] at hval; simp at hval
              · subst hl; rw [validSched] at hval; simp at hval
              · subst hl
                have hw' : WriterEvent.acquire :: wproj rest = [] := hw
                simp at hw'
          | mutate h' =>
              rcases hphase with ⟨hl, h2, hw⟩ | ⟨hl, h2, hw⟩ |
                ⟨hl, h2, hw⟩ | ⟨hl, h2, hw⟩ | ⟨hl, h2, hw⟩
              · subst hl
                have hw' : WriterEvent.mutate h' :: wproj rest =
                    [WriterEvent.acquire, WriterEvent.mutate f,
                      WriterEvent.mutate g, WriterEvent.release] := hw
                simp at hw'
              · subst hl
                rw [validSched] at hval
                simp only [Bool.true_and] at hval
                have hw' : WriterEvent.mutate h' :: wproj rest =
                    [WriterEvent.mutate f, WriterEvent.mutate g,
                      WriterEvent.release] := hw
                simp only [List.cons.injEq, WriterEvent.mutate.injEq]
                  at hw'
                obtain ⟨hhf, hrest⟩ := hw'
                have hx' : x ∈ readerSnapshots rest true (h' st) := hx
                exact ih true (h' st) hval
                  (Or.inr (Or.inr (Or.inl
                    ⟨rfl, by rw [hhf, h2], hrest⟩))) x hx'
              · subst hl
                rw [validSched] at hval
                simp only [Bool.true_and] at hval
                have hw' : WriterEvent.mutate h' :: wproj rest =
                    [WriterEvent.mutate g, WriterEvent.release] := hw
                simp only [List.cons.injEq, WriterEvent.mutate.injEq]
                  at hw'
                obtain ⟨hhg, hrest⟩ := hw'
                have hx' : x ∈ readerSnapshots rest true (h' st) := hx
                exact ih true (h' st) hval
                  (Or.inr (Or.inr (Or.inr (Or.inl
                    ⟨rfl, by rw [hhg, h2], hrest⟩)))) x hx'
              · subst hl
                have hw' : WriterEvent.mutate h' :: wproj rest =
                    [WriterEvent.release] := hw
                simp at hw'
              · subst hl
                have hw' : WriterEvent.mutate h' :: wproj rest = [] := hw
                simp at hw'
          | release =>
              rcases hphase with ⟨hl, h2, hw⟩ | ⟨hl, h2, hw⟩ |
                ⟨hl, h2, hw⟩ | ⟨hl, h2, hw⟩ | ⟨hl, h2, hw⟩
              · subst hl
                have hw' : WriterEvent.release :: wproj rest =
                    [WriterEvent.acquire, WriterEvent.mutate f,
                      WriterEvent.mutate g, WriterEvent.release] := hw
                simp at hw'
              · subst hl
                have hw' : WriterEvent.release :: wproj rest =
                    [WriterEvent.mutate f, WriterEvent.mutate g,
                      WriterEvent.release] := hw
                simp at hw'
              · subst hl
                have hw' : WriterEvent.release :: wproj rest =
                    [WriterEvent.mutate g, WriterEvent.release] := hw
                simp at hw'
              · subst hl
                rw [validSched] at hval
                simp only [Bool.true_and] at hval
                have hw' : WriterEvent.release :: wproj rest =
                    [WriterEvent.release] := hw
                simp only [List.cons.injEq, true_and] at hw'
                have hx' : x ∈ readerSnapshots rest false st := hx
                exact ih false st hval
                  (Or.inr (Or.inr (Or.inr (Or.inr ⟨rfl, h2, hw'⟩)))) x hx'
              · subst hl
                have hw' : WriterEvent.release :: wproj rest = [] := hw
                simp at hw'

/-- C4: the successful synchronization path replaces all six collections
inside one exclusive write-lock critical section, so in every lock-valid
interleaving each concurrent reader snapshot equals either the complete
old cache state or the complete new cache state, never a mixture. -/
theorem cache_replacement_atomic (conf : Config) (mv sv hv : List Member)
    (rv ev : List Group) (st0 : MemberState) (s : List Step)
    (hw : wproj s = syncWriterEvents conf mv sv hv rv ev)
    (hval : validSched s false = true) :
    ∀ x ∈ readerSnapshots s false st0,
      x = st0 ∨
        x = synchronize_members_and_groups conf (Except.ok mv)
          (Except.ok sv) (Except.ok hv) (Except.ok rv) (Except.ok ev)
          st0 := by
  intro x hx
  exact snapshots_old_or_new
    (fun st => fill_primitive_collections conf st mv sv hv rv ev)
    (fun st => construct_members_by_register st
      (sortedMembersVector conf mv) (sortBy groupLe rv))
    st0 s false st0 hval (Or.inl ⟨rfl, rfl, hw⟩) x hx

/-- Witness for C4: in the concrete schedule with one reader snapshot
before and one after the critical section, the snapshot taken after the
section is the complete old or the complete new cache state. -/
theorem cache_replacement_atomic_witness :
    synchronize_members_and_groups exConfig (Except.ok [exMember])
        (Except.ok []) (Except.ok []) (Except.ok [])
        (Except.ok [exArchiveGroup]) exState = exState ∨
    synchronize_members_and_groups exConfig (Except.ok [exMember])
        (Except.ok []) (Except.ok []) (Except.ok [])
        (Except.ok [exArchiveGroup]) exState =
      synchronize_members_and_groups exConfig (Except.ok [exMember])
        (Except.ok []) (Except.ok []) (Except.ok [])
        (Except.ok [exArchiveGroup]) exState :=
  cache_replacement_atomic exConfig [exMember] [] [] [] [exArchiveGroup]
    exState exSchedule rfl rfl
    (synchronize_members_and_groups exConfig (Except.ok [exMember])
      (Except.ok []) (Except.ok []) (Except.ok [])
      (Except.ok [exArchiveGroup]) exState)
    (List.Mem.tail _ (List.Mem.head _))

end OpenKeg
